import Mathlib

/-! # Batch-rename core: shallow embedding and verification

This file embeds the core of the `vscodium-batch-rename` extension —
the data model (`src/types/types.ts`), the name validator
(`src/utils/filesystem.ts`), the rename planner and transactional
renamer (`src/core/renamer.ts`), the session manager
(`src/core/session.ts`) and the commit flow
(`src/commands/batchRenameCommand.ts`) — as pure Lean functions, and
proves properties of the embedded code.

Modelling conventions:
* TypeScript strings are Lean `String`s; `s.substring(0, n)` is
  `take` on the character list, `path.basename` is `jsBasename` below.
* The filesystem existence probe `fileExists` never throws in the
  source (it collapses every error to `false`), so it is a parameter
  `fsE : String → Bool`; the dead `catch` branches around its call
  sites in `validateRenameOperations` are therefore not modelled.
* `vscode.Uri` values are identified with their path rendering: every
  comparison of URIs in the embedded code compares the renderings of
  both sides, so a file URI is modelled by its path string.
* The outcome of `vscode.workspace.applyEdit` (resolved `true`,
  resolved `false`, or rejected with an error message) is a parameter
  of type `ApplyOutcome`.
-/

/-- `RenameFile` from `src/types/types.ts`: a staged file with its full
path, file name, directory prefix and URI. -/
structure RenameFile where
  fsPath : String
  basename : String
  basepath : String
  uri : String
deriving Repr, DecidableEq

/-- `RenameRequest` from `src/types/types.ts`: a staged file paired with
the proposed new name. -/
structure RenameRequest where
  file : RenameFile
  newName : String
deriving Repr, DecidableEq

/-- `RenameOperation` from `src/types/types.ts`. `from` is a Lean
keyword, so the fields are `fromPath` / `toPath`; the URI fields hold
the modelled URI strings. -/
structure RenameOperation where
  fromPath : String
  toPath : String
  fromUri : String
  toUri : String
deriving Repr, DecidableEq

/-- `RenameResult` from `src/types/types.ts`; a `failed` entry is a
`(path, error)` pair. -/
structure RenameResult where
  succeeded : Nat
  failed : List (String × String)
  skipped : Nat
deriving Repr, DecidableEq

/-- `RenamingSession` from `src/types/types.ts` (the optional editor
document handle plays no role in the embedded operations). -/
structure RenamingSession where
  files : List RenameFile
  tempFilePath : String
deriving Repr, DecidableEq

/-! JavaScript string primitives, modelled on the character list so
that every embedded function evaluates by kernel reduction. `jsTrim`
uses the ASCII whitespace characters (the staged names are ASCII
paths); `jsToLower` models `toLowerCase` on the ASCII letters the
case-only comparison is about. -/

/-- Model of JS `s.includes(c)` for a one-character needle. -/
def jsContainsChar (s : String) (c : Char) : Bool :=
  s.data.contains c

/-- Whitespace for the purposes of JS `trim`. -/
def jsIsWs (c : Char) : Bool :=
  c = ' ' || c = '\t' || c = '\n' || c = '\r'

/-- Model of JS `s.trim()`. -/
def jsTrim (s : String) : String :=
  String.mk ((((s.data.dropWhile jsIsWs).reverse).dropWhile jsIsWs).reverse)

/-- Model of JS `s.toLowerCase()` (ASCII letters). -/
def jsToLower (s : String) : String :=
  String.mk (s.data.map Char.toLower)

/-- Model of JS `s.startsWith(pre)`. -/
def jsStartsWith (s pre : String) : Bool :=
  pre.data.isPrefixOf s.data

/-- Model of JS `s.endsWith(suf)`. -/
def jsEndsWith (s suf : String) : Bool :=
  suf.data.isSuffixOf s.data

/-- Split a character list at every character satisfying `p`, keeping
empty pieces (the behaviour of splitting on a single separator). -/
def splitOnPred (p : Char → Bool) : List Char → List (List Char)
  | [] => [[]]
  | c :: cs =>
    match splitOnPred p cs with
    | [] => [[c]]
    | h :: t => if p c then [] :: h :: t else (c :: h) :: t

/-- Model of splitting a string at separator characters. -/
def jsSplit (s : String) (p : Char → Bool) : List String :=
  (splitOnPred p s.data).map String.mk

/-- Model of JS `parts.join(sep)`. -/
def jsJoin (sep : String) : List String → String
  | [] => ""
  | [x] => x
  | x :: y :: xs => x ++ sep ++ jsJoin sep (y :: xs)

/-- `validateFileName` from `src/utils/filesystem.ts`:
`!fileName.includes("/") && !fileName.includes("\\")`. -/
def validateFileName (fileName : String) : Bool :=
  !jsContainsChar fileName '/' && !jsContainsChar fileName '\\'

/-- Model of Node `path.join(dir, name)` for the shapes the planner
uses (a directory prefix, normally ending in a separator, joined with a
separator-free file name): concatenation, inserting one separator when
the prefix does not already end in one. -/
def joinPath (dir name : String) : String :=
  if dir = "" then name
  else if jsEndsWith dir "/" then dir ++ name
  else dir ++ "/" ++ name

/-- Model of Node `path.basename(p)` (posix): strip trailing
separators, then keep the part after the last separator. -/
def jsBasename (p : String) : String :=
  let r := (p.data.reverse).dropWhile (fun c => c = '/')
  String.mk ((r.takeWhile (fun c => c ≠ '/')).reverse)

/-- Model of JavaScript `s.substring(0, n)`. -/
def substring0 (s : String) (n : Nat) : String :=
  String.mk (s.data.take n)

/-- The `RenameFile` record built by `SessionManager.createSession` and
(with the same three derived fields, written inline) by
`SessionManager.updateSessionAfterRename`:
`basename = path.basename(fsPath)`,
`basepath = fsPath.substring(0, fsPath.length - basename.length)`,
`uri = vscode.Uri.file(fsPath)`. -/
def mkRenameFile (fsPath : String) : RenameFile :=
  let basename := jsBasename fsPath
  { fsPath := fsPath
    basename := basename
    basepath := substring0 fsPath (fsPath.length - basename.length)
    uri := fsPath }

/-- The effect of one iteration of the validation loop in
`BatchRenamer.validateRenameOperations` on a single request: `continue`
without recording anything (`skip`), `continue` after pushing an error
message (`fail`), or push a planned operation (`emit`). -/
inductive StepOutcome where
  | skip
  | fail (msg : String)
  | emit (op : RenameOperation)
deriving Repr, DecidableEq

/-- Loop body of `BatchRenamer.validateRenameOperations`
(`src/core/renamer.ts`), checks in source order: blank new name ⇒ skip;
name fails `validateFileName` ⇒ error; `newPath = path.join(basepath,
newName)` equal to the current path ⇒ skip; source missing ⇒ error;
target exists and the change is not case-only ⇒ error; otherwise emit
the operation. -/
def processRequest (fsE : String → Bool) (r : RenameRequest) : StepOutcome :=
  let file := r.file
  let newName := r.newName
  if jsTrim newName = "" then
    .skip
  else if validateFileName newName = false then
    .fail ("Invalid filename: \"" ++ newName ++ "\" contains path separators")
  else
    let newPath := joinPath file.basepath newName
    if file.fsPath = newPath then
      .skip
    else if fsE file.fsPath = false then
      .fail ("File not found: " ++ file.fsPath)
    else if fsE newPath = true ∧ jsToLower file.fsPath ≠ jsToLower newPath then
      .fail ("Target already exists: " ++ newPath)
    else
      .emit { fromPath := file.fsPath
              toPath := newPath
              fromUri := file.uri
              toUri := newPath }

/-- The `operations` array accumulated by the validation loop, in push
order. -/
def collectOps (fsE : String → Bool) (requests : List RenameRequest) :
    List RenameOperation :=
  requests.filterMap (fun r =>
    match processRequest fsE r with
    | .emit op => some op
    | _ => none)

/-- The `errors` array accumulated by the validation loop, in push
order. -/
def collectErrors (fsE : String → Bool) (requests : List RenameRequest) :
    List String :=
  requests.filterMap (fun r =>
    match processRequest fsE r with
    | .fail msg => some msg
    | _ => none)

/-- `BatchRenamer.validateRenameOperations` (`src/core/renamer.ts`):
scan every request, and afterwards throw one aggregated error when any
error was recorded, else return the planned operations. -/
def validateRenameOperations (fsE : String → Bool)
    (requests : List RenameRequest) : Except String (List RenameOperation) :=
  if requests = [] then
    .ok []
  else
    let errors := collectErrors fsE requests
    if errors = [] then
      .ok (collectOps fsE requests)
    else
      .error ("Validation errors:\n" ++ jsJoin "\n" errors)

/-- `SessionManager.createSession` (filtering variant of
`src/core/session.ts`): drop selected paths the probe reports as
missing, build a `RenameFile` for each survivor, and fail when none
remain. -/
def createSession (fsE : String → Bool) (selectedFiles : List String)
    (tempFilePath : String) : Except String RenamingSession :=
  let files := (selectedFiles.filter fsE).map mkRenameFile
  if files = [] then
    .error "No valid files found for renaming"
  else
    .ok { files := files, tempFilePath := tempFilePath }

/-- `SessionManager.updateSessionAfterRename` (`src/core/session.ts`):
with no active session, or no staged file whose `fsPath` equals
`oldPath`, log and return leaving the state alone; otherwise overwrite
the first matching entry with the record rebuilt from `newPath`. -/
def updateSessionAfterRename (current : Option RenamingSession)
    (oldPath newPath : String) : Option RenamingSession :=
  match current with
  | none => none
  | some session =>
    match session.files.findIdx? (fun file => file.fsPath = oldPath) with
    | some fileIndex =>
        some { session with
                files := session.files.set fileIndex (mkRenameFile newPath) }
    | none => some session

/-- Outcome of the single `vscode.workspace.applyEdit` call: resolved
`true`, resolved `false`, or rejected with an error message. -/
inductive ApplyOutcome where
  | success
  | failure
  | thrown (msg : String)
deriving Repr, DecidableEq

/-- `BatchRenamer.renameWithWorkspaceEdit` (`src/core/renamer.ts`),
returning the `RenameResult` and the session state after the loop of
`updateSessionAfterRename` calls: empty input returns immediately; on
applied edit every operation succeeded and the session entries are
updated in order; on a `false` or thrown `applyEdit` every operation is
recorded as failed with one shared message. -/
def renameWithWorkspaceEdit (current : Option RenamingSession)
    (outcome : ApplyOutcome) (operations : List RenameOperation) :
    RenameResult × Option RenamingSession :=
  if operations = [] then
    ({ succeeded := 0, failed := [], skipped := 0 }, current)
  else
    match outcome with
    | .success =>
        ({ succeeded := operations.length, failed := [], skipped := 0 },
         operations.foldl
           (fun s op => updateSessionAfterRename s op.fromPath op.toPath)
           current)
    | .failure =>
        ({ succeeded := 0
           failed := operations.map
             (fun op => (op.fromPath, "Workspace edit failed to apply"))
           skipped := 0 },
         current)
    | .thrown msg =>
        ({ succeeded := 0
           failed := operations.map (fun op => (op.fromPath, msg))
           skipped := 0 },
         current)

/-- `SessionManager.getNewFilenamesFromDocument`
(`src/core/session.ts`): split the buffer on newline runs and keep the
lines that are neither blank nor `//` comments. (The JS split collapses
interior newline runs where this split yields empty strings; the
`trim().length > 0` filter removes exactly those, so the results
agree.) -/
def getNewFilenamesFromDocument (text : String) : List String :=
  (jsSplit text (fun c => c = '\r' || c = '\n')).filter
    (fun line => !(jsStartsWith (jsTrim line) "//") && (jsTrim line).length > 0)

/-- Strategy 1 of `BatchRenamer.createUndoAnchor`
(`src/core/atomic-renamer` companion file): the batch's `fromUri`
renderings are tested for membership in the open editors' URI
renderings; `true` means "an anchor already exists, do nothing". -/
def createUndoAnchorStep1 (openPaths : List String)
    (operations : List RenameOperation) : Bool :=
  (operations.map (fun op => op.fromUri)).any
    (fun p => openPaths.contains p)

/-- How one commit attempt (`performRename`) ended. -/
inductive CommitStatus where
  | failedPrecheck (msg : String)
  | validationFailed (msg : String)
  | noChanges
  | cancelled
  | completed (result : RenameResult)
deriving Repr

/-- State after one commit attempt: how it ended, the session state,
and the filesystem-existence probe describing the filesystem after the
attempt. -/
structure CommitResult where
  status : CommitStatus
  session : Option RenamingSession
  fsAfter : String → Bool

/-- Existence probe for the filesystem after a successfully applied
batch of renames: targets exist, sources no longer do, everything else
is unchanged. -/
def applyRenamesToFs (fsE : String → Bool)
    (operations : List RenameOperation) : String → Bool :=
  fun p =>
    if operations.any (fun op => op.toPath = p) then true
    else if operations.any (fun op => op.fromPath = p) then false
    else fsE p

/-- `BatchRenameCommandHandler.performRename`
(`src/commands/batchRenameCommand.ts`): read the committed lines; a
line count differing from the staged file count is a hard precondition
failure thrown before planning (re-wrapped by the surrounding catch);
then pair lines with staged files positionally, plan via
`validateRenameOperations` (a validation error is reported and nothing
more happens), treat an empty plan as "nothing to rename" (clearing
the session), stop if the user does not confirm, and otherwise execute
`renameWithWorkspaceEdit` and clear the session. -/
def performRename (fsE : String → Bool) (session : RenamingSession)
    (docText : String) (applyOutcome : ApplyOutcome) (confirm : Bool) :
    CommitResult :=
  let newNames := getNewFilenamesFromDocument docText
  if session.files.length ≠ newNames.length then
    { status := .failedPrecheck
        ("Error processing rename: The number of lines (" ++
          toString newNames.length ++
          ") does not match the number of selected files (" ++
          toString session.files.length ++ "). Operation cancelled.")
      session := some session
      fsAfter := fsE }
  else
    let renameRequests := (session.files.zip newNames).map
      (fun p => { file := p.1, newName := p.2 : RenameRequest })
    match validateRenameOperations fsE renameRequests with
    | .error msg =>
        { status := .validationFailed ("Validation error: " ++ msg)
          session := some session
          fsAfter := fsE }
    | .ok operations =>
        if operations = [] then
          { status := .noChanges, session := none, fsAfter := fsE }
        else if confirm = false then
          { status := .cancelled, session := some session, fsAfter := fsE }
        else
          let r := renameWithWorkspaceEdit (some session) applyOutcome
            operations
          { status := .completed r.1
            session := none
            fsAfter :=
              match applyOutcome with
              | .success => applyRenamesToFs fsE operations
              | _ => fsE }

/-! ## Concrete fixtures used by scenario theorems and witnesses -/

/-- Probe for a directory holding exactly `x.txt` and `y.txt`. -/
def fsSwap : String → Bool := fun p => p = "/d/x.txt" || p = "/d/y.txt"

/-- The session obtained by staging `x.txt` and `y.txt`. -/
def sessionSwap : RenamingSession :=
  { files := [mkRenameFile "/d/x.txt", mkRenameFile "/d/y.txt"]
    tempFilePath := "/t" }

/-- The swapped rename requests: `x.txt → y.txt` and `y.txt → x.txt`. -/
def reqSwap : List RenameRequest :=
  [ { file := mkRenameFile "/d/x.txt", newName := "y.txt" },
    { file := mkRenameFile "/d/y.txt", newName := "x.txt" } ]

/-- A planned operation `a.txt → b.txt`. -/
def opAtoB : RenameOperation :=
  { fromPath := "/d/a.txt", toPath := "/d/b.txt"
    fromUri := "/d/a.txt", toUri := "/d/b.txt" }

/-- A planned operation `p → q`. -/
def opPQ : RenameOperation :=
  { fromPath := "/d/p", toPath := "/d/q", fromUri := "/d/p", toUri := "/d/q" }

/-- A planned operation `r → s`. -/
def opRS : RenameOperation :=
  { fromPath := "/d/r", toPath := "/d/s", fromUri := "/d/r", toUri := "/d/s" }

/-! ## Helper lemmas -/

theorem string_mk_append (x y : List Char) :
    String.mk x ++ String.mk y = String.mk (x ++ y) := rfl

theorem string_append_head (a b : String) (c : Char)
    (h : a.data.head? = some c) : (a ++ b).data.head? = some c := by
  obtain ⟨l⟩ := a
  obtain ⟨m⟩ := b
  cases l with
  | nil => simp at h
  | cons x xs => simpa [string_mk_append] using h

theorem append_ne_append_of_head_ne (a b x y : String) (ca cb : Char)
    (hca : a.data.head? = some ca) (hcb : b.data.head? = some cb)
    (hne : ca ≠ cb) : a ++ x ≠ b ++ y := by
  intro h
  have h1 := string_append_head a x ca hca
  have h2 := string_append_head b y cb hcb
  rw [h, h2] at h1
  exact hne (Option.some.inj h1).symm

theorem mkRenameFile_path_inv (p : String)
    (h : p.data.getLast? ≠ some '/') :
    (mkRenameFile p).fsPath =
      (mkRenameFile p).basepath ++ (mkRenameFile p).basename := by
  obtain ⟨l⟩ := p
  have hdrop : (l.reverse).dropWhile (fun c => c = '/') = l.reverse := by
    cases hl : l.reverse with
    | nil => rfl
    | cons c t =>
      have hlast : (String.mk l).data.getLast? = some c := by
        show l.getLast? = some c
        rw [← List.head?_reverse, hl]
        rfl
      have hc : c ≠ '/' := fun hceq => h (by rw [hlast, hceq])
      rw [List.dropWhile_cons, if_neg (by simp [hc])]
  show String.mk l =
    substring0 (String.mk l)
      ((String.mk l).length - (jsBasename (String.mk l)).length) ++
    jsBasename (String.mk l)
  rw [jsBasename]
  simp only [hdrop]
  rw [substring0, string_mk_append]
  set t := (l.reverse).takeWhile (fun c => c ≠ '/') with ht
  set d := (l.reverse).dropWhile (fun c => c ≠ '/') with hd
  have htd : t ++ d = l.reverse := List.takeWhile_append_dropWhile ..
  have hldata : l = d.reverse ++ t.reverse := by
    rw [← List.reverse_append, htd, List.reverse_reverse]
  have hlen : l.length - t.reverse.length = d.reverse.length := by
    rw [hldata]
    simp
  show String.mk l = String.mk (List.take (l.length - t.reverse.length) l ++ t.reverse)
  have hX : List.take (l.length - t.reverse.length) l ++ t.reverse = l := by
    rw [hlen]
    conv_lhs => rw [hldata]
    rw [List.take_left' rfl]
    exact hldata.symm
  exact (congrArg String.mk hX).symm

/-! ## Claim theorems -/

/-- C1: whenever some rename request is invalid (its loop iteration
records an error), `validateRenameOperations` fails with one error that
carries every recorded problem across all requests, and returns no
operations; the error scan does not stop at the first invalid request —
errors recorded for a list of requests extended on the right are the
errors of the first part followed by the errors of the extension. -/
theorem validateRenameOperations_aggregates_all_errors
    (fsE : String → Bool) (requests : List RenameRequest)
    (h : ∃ r ∈ requests, ∃ msg, processRequest fsE r = .fail msg) :
    validateRenameOperations fsE requests =
      .error ("Validation errors:\n" ++
        jsJoin "\n" (collectErrors fsE requests)) ∧
    ∀ more : List RenameRequest,
      collectErrors fsE (requests ++ more) =
        collectErrors fsE requests ++ collectErrors fsE more := by
  obtain ⟨r, hr, msg, hmsg⟩ := h
  have hne : requests ≠ [] := by
    rintro rfl
    simp at hr
  have herr : collectErrors fsE requests ≠ [] := by
    intro hnil
    rw [collectErrors, List.filterMap_eq_nil_iff] at hnil
    have hrnil := hnil r hr
    rw [hmsg] at hrnil
    simp at hrnil
  constructor
  · rw [validateRenameOperations, if_neg hne]
    simp only []
    rw [if_neg herr]
  · intro more
    simp [collectErrors]

theorem validateRenameOperations_aggregates_all_errors_witness :
    (∃ r ∈ reqSwap, ∃ msg, processRequest fsSwap r = .fail msg) ∧
    validateRenameOperations fsSwap reqSwap =
      .error ("Validation errors:\n" ++
        jsJoin "\n" (collectErrors fsSwap reqSwap)) :=
  ⟨⟨{ file := mkRenameFile "/d/x.txt", newName := "y.txt" },
     by decide, "Target already exists: /d/y.txt", by decide⟩,
   (validateRenameOperations_aggregates_all_errors fsSwap reqSwap
     ⟨{ file := mkRenameFile "/d/x.txt", newName := "y.txt" },
      by decide, "Target already exists: /d/y.txt", by decide⟩).1⟩

/-- C2: for a non-empty operation list, when `applyEdit` resolves
`false` or throws, the `RenameResult` has `succeeded = 0` and `failed`
is exactly one entry per operation, all carrying the same error
message (so no operation is reported as partially succeeded). -/
theorem renameWithWorkspaceEdit_primitive_failure_all_failed
    (current : Option RenamingSession) (operations : List RenameOperation)
    (msg : String) (h : operations ≠ []) :
    (renameWithWorkspaceEdit current .failure operations).1 =
      { succeeded := 0
        failed := operations.map
          (fun op => (op.fromPath, "Workspace edit failed to apply"))
        skipped := 0 } ∧
    (renameWithWorkspaceEdit current (.thrown msg) operations).1 =
      { succeeded := 0
        failed := operations.map (fun op => (op.fromPath, msg))
        skipped := 0 } ∧
    (operations.map
      (fun op => (op.fromPath, "Workspace edit failed to apply"))).length =
      operations.length ∧
    (operations.map (fun op => (op.fromPath, msg))).length =
      operations.length := by
  refine ⟨?_, ?_, by simp, by simp⟩ <;>
    simp [renameWithWorkspaceEdit, h]

theorem renameWithWorkspaceEdit_primitive_failure_all_failed_witness :
    (renameWithWorkspaceEdit none .failure [opPQ, opRS]).1 =
      { succeeded := 0
        failed := [("/d/p", "Workspace edit failed to apply"),
                   ("/d/r", "Workspace edit failed to apply")]
        skipped := 0 } :=
  (renameWithWorkspaceEdit_primitive_failure_all_failed none [opPQ, opRS]
    "boom" (by decide)).1

/-- C3 counterexample: `validateFileName` does not reject empty or
whitespace-only names — it returns `true` on `""` and on `" "`,
refuting the claim that the validator returns `false` there. -/
theorem validateFileName_accepts_blank_counterexample :
    validateFileName "" = true ∧ validateFileName " " = true := by
  constructor <;> rfl

/-- C3 (amended): `validateFileName` returns `false` for every name
containing a path-separator character; empty or whitespace-only names
are not rejected by the validator, but the planner loop skips them
(no error and no operation) before the validator is consulted. -/
theorem validateFileName_rejects_separators_blank_skipped
    (name : String) (fsE : String → Bool) (file : RenameFile)
    (blank : String)
    (hsep : jsContainsChar name '/' = true ∨ jsContainsChar name '\\' = true)
    (hblank : jsTrim blank = "") :
    validateFileName name = false ∧
    processRequest fsE { file := file, newName := blank } = .skip := by
  constructor
  · rcases hsep with h | h <;> simp [validateFileName, h]
  · simp [processRequest, hblank]

theorem validateFileName_rejects_separators_blank_skipped_witness :
    validateFileName "a/b" = false ∧
    processRequest fsSwap { file := mkRenameFile "/d/x.txt", newName := "  " }
      = .skip :=
  validateFileName_rejects_separators_blank_skipped "a/b" fsSwap
    (mkRenameFile "/d/x.txt") "  " (Or.inl (by rfl)) (by rfl)

/-- C4: for a non-empty operation list, when `applyEdit` succeeds the
`RenameResult` reports every operation as succeeded with no failures,
and the session is rewritten by `updateSessionAfterRename` once per
operation in order; each such update replaces the first staged file
whose path equals the operation's source path by the record rebuilt
from the destination path, whose `fsPath` is the new path and whose
`basename` is the new name. -/
theorem renameWithWorkspaceEdit_success_updates_session
    (current : Option RenamingSession) (operations : List RenameOperation)
    (h : operations ≠ []) :
    (renameWithWorkspaceEdit current .success operations).1 =
      { succeeded := operations.length, failed := [], skipped := 0 } ∧
    (renameWithWorkspaceEdit current .success operations).2 =
      operations.foldl
        (fun s op => updateSessionAfterRename s op.fromPath op.toPath)
        current ∧
    ∀ (session : RenamingSession) (i : Nat) (oldPath newPath : String),
      session.files.findIdx? (fun f => f.fsPath = oldPath) = some i →
      updateSessionAfterRename (some session) oldPath newPath =
        some { session with
                files := session.files.set i (mkRenameFile newPath) } ∧
      (mkRenameFile newPath).fsPath = newPath ∧
      (mkRenameFile newPath).basename = jsBasename newPath := by
  refine ⟨by simp [renameWithWorkspaceEdit, h],
          by simp [renameWithWorkspaceEdit, h], ?_⟩
  intro session i oldPath newPath hfind
  refine ⟨?_, rfl, rfl⟩
  simp [updateSessionAfterRename, hfind]

theorem renameWithWorkspaceEdit_success_updates_session_witness :
    (renameWithWorkspaceEdit (some sessionSwap) .success [opPQ]).1 =
      { succeeded := 1, failed := [], skipped := 0 } :=
  (renameWithWorkspaceEdit_success_updates_session (some sessionSwap) [opPQ]
    (by decide)).1

/-- C5: staging `x.txt` and `y.txt` and committing the swapped lines
`y.txt`, `x.txt` makes planning fail with the aggregated validation
error naming both collisions (`x.txt`'s target `y.txt` already exists
with a different source, and symmetrically), rather than skipping the
lines as no-ops or returning a plan; the end-to-end commit reports the
same validation failure. -/
theorem swap_rename_collision_validation_error :
    createSession fsSwap ["/d/x.txt", "/d/y.txt"] "/t" = .ok sessionSwap ∧
    validateRenameOperations fsSwap reqSwap =
      .error ("Validation errors:\n" ++
        "Target already exists: /d/y.txt\n" ++
        "Target already exists: /d/x.txt") ∧
    (performRename fsSwap sessionSwap "y.txt\nx.txt" .success true).status =
      .validationFailed ("Validation error: Validation errors:\n" ++
        "Target already exists: /d/y.txt\n" ++
        "Target already exists: /d/x.txt") := by
  refine ⟨rfl, rfl, rfl⟩

/-- C7: when the number of committed (non-blank, non-comment) lines
differs from the number of staged files, the commit fails with the
precondition error before planning begins, the staged files are left
unchanged, and the filesystem probe after the attempt is the one from
before it (no rename or other mutation happened). -/
theorem performRename_line_count_mismatch_fails_before_planning
    (fsE : String → Bool) (session : RenamingSession) (docText : String)
    (applyOutcome : ApplyOutcome) (confirm : Bool)
    (h : session.files.length ≠ (getNewFilenamesFromDocument docText).length) :
    performRename fsE session docText applyOutcome confirm =
      { status := .failedPrecheck
          ("Error processing rename: The number of lines (" ++
            toString (getNewFilenamesFromDocument docText).length ++
            ") does not match the number of selected files (" ++
            toString session.files.length ++ "). Operation cancelled.")
        session := some session
        fsAfter := fsE } := by
  rw [performRename]
  simp only []
  rw [if_pos h]

theorem performRename_line_count_mismatch_fails_before_planning_witness :
    sessionSwap.files.length ≠
      (getNewFilenamesFromDocument "a.txt").length ∧
    performRename fsSwap sessionSwap "a.txt" .success true =
      { status := .failedPrecheck
          ("Error processing rename: The number of lines (1) does not " ++
            "match the number of selected files (2). Operation cancelled.")
        session := some sessionSwap
        fsAfter := fsSwap } :=
  ⟨by decide,
   performRename_line_count_mismatch_fails_before_planning fsSwap sessionSwap
     "a.txt" .success true (by decide)⟩

/-- C10: `updateSessionAfterRename` is a silent no-op when there is no
active session or when `oldPath` matches no staged file (every entry is
left unchanged), and when a match exists only the first matching entry
is rewritten — every other index holds exactly the file it held
before. -/
theorem updateSessionAfterRename_noop_and_frame
    (oldPath newPath : String) (s : RenamingSession) (i : Nat) :
    updateSessionAfterRename none oldPath newPath = none ∧
    ((∀ f ∈ s.files, f.fsPath ≠ oldPath) →
      updateSessionAfterRename (some s) oldPath newPath = some s) ∧
    (s.files.findIdx? (fun f => f.fsPath = oldPath) = some i →
      updateSessionAfterRename (some s) oldPath newPath =
        some { s with files := s.files.set i (mkRenameFile newPath) } ∧
      ∀ j : Nat, j ≠ i →
        (s.files.set i (mkRenameFile newPath))[j]? = s.files[j]?) := by
  refine ⟨rfl, ?_, ?_⟩
  · intro h
    have hnone : s.files.findIdx? (fun f => f.fsPath = oldPath) = none := by
      rw [List.findIdx?_eq_none_iff]
      intro f hf
      simpa using h f hf
    simp [updateSessionAfterRename, hnone]
  · intro hfind
    refine ⟨by simp [updateSessionAfterRename, hfind], ?_⟩
    intro j hj
    exact List.getElem?_set_ne (Ne.symm hj)

theorem updateSessionAfterRename_noop_and_frame_witness :
    updateSessionAfterRename none "/d/x.txt" "/d/z.txt" = none ∧
    updateSessionAfterRename (some sessionSwap) "/d/nope.txt" "/d/z.txt" =
      some sessionSwap ∧
    updateSessionAfterRename (some sessionSwap) "/d/x.txt" "/d/z.txt" =
      some { sessionSwap with
              files := sessionSwap.files.set 0 (mkRenameFile "/d/z.txt") } :=
  ⟨(updateSessionAfterRename_noop_and_frame "/d/x.txt" "/d/z.txt"
      sessionSwap 0).1,
   (updateSessionAfterRename_noop_and_frame "/d/nope.txt" "/d/z.txt"
      sessionSwap 0).2.1 (by decide),
   ((updateSessionAfterRename_noop_and_frame "/d/x.txt" "/d/z.txt"
      sessionSwap 0).2.2 (by decide)).1⟩

theorem string_append_assoc (a b c : String) :
    a ++ b ++ c = a ++ (b ++ c) := by
  obtain ⟨x⟩ := a
  obtain ⟨y⟩ := b
  obtain ⟨z⟩ := c
  simp only [string_mk_append, List.append_assoc]

theorem string_data_append (a b : String) :
    (a ++ b).data = a.data ++ b.data := by
  obtain ⟨x⟩ := a
  obtain ⟨y⟩ := b
  rfl

theorem emitted_toPath_no_trailing_sep (fsE : String → Bool)
    (r : RenameRequest) (op : RenameOperation)
    (h : processRequest fsE r = .emit op) :
    op.toPath.data.getLast? ≠ some '/' := by
  simp only [processRequest] at h
  split at h
  next h1 => simp at h
  next h1 =>
    split at h
    next h2 => simp at h
    next h2 =>
      have hname_ne : r.newName.data ≠ [] := by
        intro hnil
        apply h1
        rw [jsTrim, hnil]
        rfl
      have hnoslash : ¬ '/' ∈ r.newName.data := by
        intro hmem
        apply h2
        simp [validateFileName, jsContainsChar, hmem]
      have hlastname : r.newName.data.getLast? ≠ some '/' := by
        intro hlast
        exact hnoslash (List.mem_of_getLast?_eq_some hlast)
      split at h
      next h3 => simp at h
      next h3 =>
        split at h
        next h4 => simp at h
        next h4 =>
          split at h
          next h5 => simp at h
          next h5 =>
            rw [StepOutcome.emit.injEq] at h
            subst h
            show (joinPath r.file.basepath r.newName).data.getLast? ≠ some '/'
            rw [joinPath]
            split
            · exact hlastname
            · split
              · rw [string_data_append, List.getLast?_append]
                cases hl : r.newName.data with
                | nil => exact absurd hl hname_ne
                | cons c cs =>
                    rw [← hl]
                    have : r.newName.data.getLast?.isSome := by
                      rw [hl]
                      simp
                    intro hcon
                    apply hlastname
                    rwa [Option.or_of_isSome this] at hcon
              · rw [string_data_append, List.getLast?_append]
                intro hcon
                apply hlastname
                have : r.newName.data.getLast?.isSome := by
                  cases hl : r.newName.data with
                  | nil => exact absurd hl hname_ne
                  | cons c cs => simp
                rwa [Option.or_of_isSome this] at hcon

/-- C8: every staged file record satisfies `fsPath = basepath ++
basename` — for the records built by `createSession` from selected
paths (which, being file paths, do not end in a separator), and for
the records a session holds after `updateSessionAfterRename` rewrote an
entry for a destination path that does not end in a separator; the
three fields are only ever rebuilt together by `mkRenameFile`, and
every destination path the renamer feeds to `updateSessionAfterRename`
(the `toPath` of a planned operation) indeed does not end in a
separator. -/
theorem session_files_path_invariant :
    (∀ (fsE : String → Bool) (selected : List String) (tmp : String)
       (session : RenamingSession),
      (∀ p ∈ selected, p.data.getLast? ≠ some '/') →
      createSession fsE selected tmp = .ok session →
      ∀ f ∈ session.files, f.fsPath = f.basepath ++ f.basename) ∧
    (∀ (s₀ s₁ : RenamingSession) (oldPath newPath : String),
      newPath.data.getLast? ≠ some '/' →
      (∀ f ∈ s₀.files, f.fsPath = f.basepath ++ f.basename) →
      updateSessionAfterRename (some s₀) oldPath newPath = some s₁ →
      ∀ f ∈ s₁.files, f.fsPath = f.basepath ++ f.basename) ∧
    (∀ (fsE : String → Bool) (r : RenameRequest) (op : RenameOperation),
      processRequest fsE r = .emit op →
      op.toPath.data.getLast? ≠ some '/') := by
  refine ⟨?_, ?_, emitted_toPath_no_trailing_sep⟩
  case refine_1 =>
    intro fsE selected tmp session hsel hcreate f hf
    rw [createSession] at hcreate
    split at hcreate
    · simp at hcreate
    · rw [Except.ok.injEq] at hcreate
      subst hcreate
      obtain ⟨p, hp, rfl⟩ := List.mem_map.1 hf
      exact mkRenameFile_path_inv p (hsel p (List.mem_of_mem_filter hp))
  · intro s₀ s₁ oldPath newPath hnew hinv hupd f hf
    simp only [updateSessionAfterRename] at hupd
    split at hupd
    · rw [Option.some.injEq] at hupd
      subst hupd
      rcases List.mem_or_eq_of_mem_set hf with hmem | rfl
      · exact hinv f hmem
      · exact mkRenameFile_path_inv newPath hnew
    · rw [Option.some.injEq] at hupd
      subst hupd
      exact hinv f hf

theorem session_files_path_invariant_witness :
    (mkRenameFile "/d/x.txt").fsPath =
      (mkRenameFile "/d/x.txt").basepath ++ (mkRenameFile "/d/x.txt").basename :=
  session_files_path_invariant.1 fsSwap ["/d/x.txt", "/d/y.txt"] "/t"
    sessionSwap (by decide) rfl (mkRenameFile "/d/x.txt")
    (List.mem_cons_self _ _)

/-- C9 counterexample: with the single batch operation
`a.txt → b.txt` and exactly the destination `b.txt` open in an editor,
the formerly claimed suppression condition holds (a destination path of
the batch is in the open set) yet the first fallback step does not
skip anchor creation — it consults only source paths. -/
theorem createUndoAnchorStep1_dest_open_counterexample :
    ([opAtoB].map (fun op => op.toUri)).any
      (fun p => ["/d/b.txt"].contains p) = true ∧
    createUndoAnchorStep1 ["/d/b.txt"] [opAtoB] = false := by
  constructor <;> rfl

/-- C9 (amended): the first step of the undo-anchor fallback chain
skips anchor creation exactly when some operation's source URI is in
the set of open editor URIs; destination paths are not consulted. -/
theorem createUndoAnchorStep1_skips_iff_source_open
    (openPaths : List String) (operations : List RenameOperation) :
    createUndoAnchorStep1 openPaths operations = true ↔
      ∃ op ∈ operations, op.fromUri ∈ openPaths := by
  simp only [createUndoAnchorStep1, List.any_eq_true, List.mem_map]
  constructor
  · rintro ⟨p, ⟨op, hop, rfl⟩, hmem⟩
    exact ⟨op, hop, by simpa using hmem⟩
  · rintro ⟨op, hop, hmem⟩
    exact ⟨op.fromUri, ⟨op, hop, rfl⟩, by simpa using hmem⟩

/-- Probe for a directory holding `Foo.txt` and (case-insensitively)
its lowercase variant. -/
def fsFoo : String → Bool := fun p => p = "/d/Foo.txt" || p = "/d/foo.txt"

/-- C6: a request whose destination differs from its source only in
letter case is accepted and planned as an operation even when the
existence probe reports the destination as existing; and the planner
raises its destination-collision error for a request exactly when the
destination exists and the two paths are not case-only variants (with
the request otherwise reaching the collision check). -/
theorem caseOnly_rename_accepted_collision_iff
    (fsE : String → Bool) (file : RenameFile) (newName : String)
    (hblank : jsTrim newName ≠ "")
    (hvalid : validateFileName newName = true)
    (hchange : file.fsPath ≠ joinPath file.basepath newName)
    (hsrc : fsE file.fsPath = true)
    (hcase : jsToLower file.fsPath = jsToLower (joinPath file.basepath newName)) :
    processRequest fsE { file := file, newName := newName } =
      .emit { fromPath := file.fsPath
              toPath := joinPath file.basepath newName
              fromUri := file.uri
              toUri := joinPath file.basepath newName } ∧
    ∀ (fsF : String → Bool) (r : RenameRequest),
      (processRequest fsF r =
        .fail ("Target already exists: " ++ joinPath r.file.basepath r.newName))
      ↔
      (jsTrim r.newName ≠ "" ∧ validateFileName r.newName = true ∧
       r.file.fsPath ≠ joinPath r.file.basepath r.newName ∧
       fsF r.file.fsPath = true ∧
       fsF (joinPath r.file.basepath r.newName) = true ∧
       jsToLower r.file.fsPath ≠ jsToLower (joinPath r.file.basepath r.newName)) := by
  constructor
  · rw [processRequest]
    simp only []
    rw [if_neg hblank, if_neg (by simp [hvalid]), if_neg hchange,
      if_neg (by simp [hsrc]),
      if_neg (by rintro ⟨h1, h2⟩; exact h2 hcase)]
  · intro fsF r
    constructor
    · intro h
      simp only [processRequest] at h
      split at h
      next h1 => simp at h
      next h1 =>
        split at h
        next h2 =>
          exfalso
          have heq := StepOutcome.fail.inj h
          rw [string_append_assoc] at heq
          exact append_ne_append_of_head_ne _ _ _ _ 'I' 'T'
            (by decide) (by decide) (by decide) heq
        next h2 =>
          split at h
          next h3 => simp at h
          next h3 =>
            split at h
            next h4 =>
              exfalso
              have heq := StepOutcome.fail.inj h
              exact append_ne_append_of_head_ne _ _ _ _ 'F' 'T'
                (by decide) (by decide) (by decide) heq
            next h4 =>
              split at h
              next h5 =>
                exact ⟨h1, by simpa using h2, h3, by simpa using h4,
                  h5.1, h5.2⟩
              next h5 => simp at h
    · rintro ⟨h1, h2, h3, h4, h5, h6⟩
      simp only [processRequest]
      rw [if_neg h1, if_neg (by simp [h2]), if_neg h3,
        if_neg (by simp [h4]), if_pos ⟨h5, h6⟩]

theorem caseOnly_rename_accepted_collision_iff_witness :
    fsFoo "/d/foo.txt" = true ∧
    processRequest fsFoo
        { file := mkRenameFile "/d/Foo.txt", newName := "foo.txt" } =
      .emit { fromPath := "/d/Foo.txt", toPath := "/d/foo.txt"
              fromUri := "/d/Foo.txt", toUri := "/d/foo.txt" } :=
  ⟨rfl,
   (caseOnly_rename_accepted_collision_iff fsFoo (mkRenameFile "/d/Foo.txt")
      "foo.txt" (by decide) (by decide) (by decide) (by decide)
      (by decide)).1⟩
